import Mathlib

/-!
Verification development for the kafa reservation system.

Times are modelled in minutes on the timeline of the target date (so 18:00
is minute 1080 and 22:00 is minute 1320); the JavaScript source works in
milliseconds on `Date` objects, which is an affine rescaling of the same
timeline.  Reservations last 2 hours = 120 minutes, slots last 30 minutes.
-/

namespace Kafa

/-! ### Slot grid and overlap (src/unnamed/part_004, availability route) -/

/-- A slot is represented by its `(hour, minute)` label, e.g. `(18, 30)`
stands for the string label `"18:30"` produced by the route. -/
abbrev Slot := Nat × Nat

/-- Embeds `generateTimeSlots`: for hour = 18..22 push `hour:00`, and
`hour:30` whenever `hour < 22`. -/
def generateTimeSlots : List Slot :=
  (List.range 5).flatMap (fun i =>
    let hour := 18 + i
    (hour, 0) :: (if hour < 22 then [(hour, 30)] else []))

/-- Minute-of-day of a slot label (`new Date(dateStr + "T" + slotTime)`
relative to midnight of the target date). -/
def slotStartMin (s : Slot) : Int := 60 * (s.1 : Int) + (s.2 : Int)

/-- Embeds `reservationOverlapsSlot`: the reservation spans
`[resStart, resStart + 2h)` and the slot spans `[slotStart, slotStart + 30m)`;
the code returns `reservationStart < slotEnd && reservationEnd > slotStart`. -/
def reservationOverlapsSlot (resStart : Int) (s : Slot) : Bool :=
  let slotStart := slotStartMin s
  let slotEnd := slotStart + 30
  let resEnd := resStart + 120
  decide (resStart < slotEnd ∧ resEnd > slotStart)

/-- One row of the per-area reservation list handed to
`calculateAreaAvailability`: its start minute on the date's timeline and
its guest count. -/
structure ResEntry where
  datetime : Int
  guests : Int
  deriving Repr, DecidableEq

/-- Per-slot availability record `{ reserved, available }`. -/
structure SlotAvail where
  reserved : Int
  available : Int
  deriving Repr, DecidableEq

/-- Embeds `calculateAreaAvailability`: for each generated slot, fold the
guest counts of overlapping reservations into `reserved` and clamp
`capacity - reserved` at 0 for `available`. -/
def calculateAreaAvailability (capacity : Int) (rs : List ResEntry) :
    List (Slot × SlotAvail) :=
  generateTimeSlots.map (fun slot =>
    let reserved := rs.foldl
      (fun acc r => if reservationOverlapsSlot r.datetime slot then acc + r.guests else acc) 0
    (slot, { reserved := reserved, available := max 0 (capacity - reserved) }))

/-- Specification-side form of the reserved count: the sum of the guests of
the reservations whose 2-hour span overlaps the slot. -/
def reservedSum (rs : List ResEntry) (slot : Slot) : Int :=
  ((rs.filter (fun r => reservationOverlapsSlot r.datetime slot)).map ResEntry.guests).sum

/-! ### The availability route handler (src/unnamed/part_004, GET /) -/

/-- A row of the `reservations` table as selected by the route, with the
`datetime` column split into its calendar date and its minute-of-day
(`DATE(r.datetime)` and `TIME(r.datetime)` at minute granularity). -/
structure DbReservationRow where
  area_id : Nat
  guests : Int
  date : String
  time : Int
  deriving Repr, DecidableEq

/-- A row of the `areas` table. -/
structure AreaRow where
  area_id : Nat
  name : String
  capacity : Int
  allows_children : Bool
  allows_smoking : Bool
  deriving Repr, DecidableEq

/-- Embeds the route's `reservationsSql` WHERE clause:
`DATE(r.datetime) = DATE(?) AND TIME(r.datetime) >= '18:00:00' AND
TIME(r.datetime) <= '22:00:00'` (18:00 is minute 1080, 22:00 is minute 1320).
The `ORDER BY area_id, datetime` clause is omitted: the result feeds only a
per-slot guest-count sum, which never inspects row order.  -/
def fetchReservationsForDate (db : List DbReservationRow) (date : String) :
    List DbReservationRow :=
  db.filter (fun r => decide (r.date = date ∧ 1080 ≤ r.time ∧ r.time ≤ 1320))

/-- Embeds step 3 of the route handler for a single area: filter the fetched
reservations down to the area (`r.area_id === area.area_id`) and build its
availability map. -/
def routeAreaAvailability (db : List DbReservationRow) (date : String)
    (area : AreaRow) : List (Slot × SlotAvail) :=
  let reservations := fetchReservationsForDate db date
  let areaReservations := reservations.filter (fun r => r.area_id = area.area_id)
  calculateAreaAvailability area.capacity
    (areaReservations.map (fun r => { datetime := r.time, guests := r.guests }))

/-! ### Client-side availability cache (src/unnamed/part_002,
`ReservationCacheService`) -/

/-- TTL of the availability cache, in milliseconds:
`AVAILABILITY_TTL_MS = 2 * 60 * 1000`. -/
def AVAILABILITY_TTL_MS : Int := 2 * 60 * 1000

/-- Embeds the `AvailabilityCache` record `{ date, data, timestamp }`; the
payload (`any[]` in the source) stays a type parameter. -/
structure AvailabilityCacheEntry (α : Type) where
  date : String
  data : α
  timestamp : Int
  deriving Repr, DecidableEq

/-- Embeds `isAvailabilityExpired`: `now - timestamp > AVAILABILITY_TTL_MS`.
The wall clock `now` (`Date.now()` in the source) is passed explicitly. -/
def isAvailabilityExpired (now timestamp : Int) : Bool :=
  decide (now - timestamp > AVAILABILITY_TTL_MS)

/-- Embeds `getAvailability`: return `null` when there is no cache entry, the
cached date differs from the requested one, or the entry has expired;
otherwise return the cached data.  The current value of
`availabilitySubject` is passed explicitly as `cache`. -/
def getAvailability {α : Type} (cache : Option (AvailabilityCacheEntry α))
    (date : String) (now : Int) : Option α :=
  match cache with
  | none => none
  | some c =>
    if c.date ≠ date ∨ isAvailabilityExpired now c.timestamp then none
    else some c.data

/-! ### Availability service (src/kafeApp/src/app/services/availability.service.ts)

The four area keys form a closed enumeration (`Record<string, number>` keys
and the `value` field of `AreaConfig`), so they are modelled as an inductive
type. -/

inductive AreaKey where
  | MainHall
  | Bar
  | RiverSide
  | RiverSideSmoking
  deriving Repr, DecidableEq

/-- Embeds the `AreaConfig` interface. -/
structure AreaConfig where
  value : AreaKey
  label : String
  maxGuests : Int
  allowChildren : Bool
  smokingAllowed : Bool
  deriving Repr, DecidableEq

/-- Embeds `getAvailableSeatingAreas`. -/
def getAvailableSeatingAreas : List AreaConfig :=
  [ { value := AreaKey.MainHall, label := "Main Hall (12 or fewer)", maxGuests := 12,
      allowChildren := true, smokingAllowed := false },
    { value := AreaKey.Bar, label := "Bar (4 or fewer & no children)", maxGuests := 4,
      allowChildren := false, smokingAllowed := false },
    { value := AreaKey.RiverSide, label := "RiverSide (8 or fewer)", maxGuests := 8,
      allowChildren := true, smokingAllowed := false },
    { value := AreaKey.RiverSideSmoking, label := "RiverSide Smoking (6 or fewer & no children)",
      maxGuests := 6, allowChildren := false, smokingAllowed := true } ]

/-- Mutable state of `AvailabilityService` that the checker consults:
the current value of `seatsLeftSubject` (a `Record<string, number | null>`,
where a missing or `null` entry is `none`) and the `areaTotals` record
(initialised with all four keys, which are never removed, hence a total
function). -/
structure ServiceState where
  seatsLeft : AreaKey → Option Int
  areaTotals : AreaKey → Int

/-- The initial `areaTotals` record of the service. -/
def initialAreaTotals : AreaKey → Int
  | AreaKey.MainHall => 60
  | AreaKey.Bar => 10
  | AreaKey.RiverSide => 20
  | AreaKey.RiverSideSmoking => 10

/-- A calendar datetime as carried by a successfully parsed JavaScript
`Date` (naive local wall clock, as the spec stipulates). -/
structure JsDateTime where
  year : Nat
  month : Nat
  day : Nat
  hour : Nat
  minute : Nat
  second : Nat
  deriving Repr, DecidableEq

/-- Embeds `Partial<ReservationData>` as consumed by the checker and the
suggestion engine: `datetime` is `none` for a missing or empty value,
`guests`/`children` are `none` when the field is absent (`undefined`).
The remaining `ReservationData` fields (name, email, phone, birthday data)
are never read by these functions and are omitted. -/
structure Candidate where
  datetime : Option JsDateTime
  guests : Option Int
  children : Option Int
  smoking : Bool
  preferredArea : Option AreaKey
  deriving Repr, DecidableEq

/-- JavaScript `x > y` for a possibly-`undefined` left operand: comparisons
with `undefined` are false. -/
def jsGtOpt (x : Option Int) (y : Int) : Bool :=
  match x with
  | some n => decide (n > y)
  | none => false

/-- JavaScript `x <= y` for a possibly-`undefined` left operand. -/
def jsLeOpt (x : Option Int) (y : Int) : Bool :=
  match x with
  | some n => decide (n ≤ y)
  | none => false

/-- Embeds `isAreaDisabled`.  The first three rules use `smoking`,
`(children || 0) > 0`, and `(guests || 0) > area.maxGuests`; the final rule
compares `requiredSeats = max(1, floor(guests || 0))` against the seats left
for the area as recorded in the service's own `seatsLeftSubject`, falling
back to `areaTotals[area.value]` when that value is `null`/absent
(`guests` is an integer here, so `Math.floor` is the identity). -/
def isAreaDisabled (st : ServiceState) (area : AreaConfig) (rd : Candidate) : Bool :=
  if rd.smoking ∧ ¬area.smokingAllowed then true
  else if (rd.children.getD 0) > 0 ∧ ¬area.allowChildren then true
  else if (rd.guests.getD 0) > area.maxGuests then true
  else
    let requiredSeats := max 1 (rd.guests.getD 0)
    let left := st.seatsLeft area.value
    let available :=
      match left with
      | none => st.areaTotals area.value
      | some n => n
    decide (requiredSeats > available)

/-- The no-preferred-area branch of `checkReservationAgainstAvailability`:
filter the areas through `isAreaDisabled`, fail when none remain, and
otherwise succeed as soon as one area's remaining seats (falling back to
`areaTotals` when unknown) cover the required seats. -/
def checkAnyArea (st : ServiceState) (rd : Candidate)
    (seatsLeft : AreaKey → Option Int) (requiredSeats : Int) : Bool :=
  let candidateAreas := getAvailableSeatingAreas.filter (fun a => ¬isAreaDisabled st a rd)
  if candidateAreas.isEmpty then false
  else
    candidateAreas.any (fun a =>
      let available :=
        match seatsLeft a.value with
        | none => st.areaTotals a.value
        | some n => n
      decide (available ≥ requiredSeats))

/-- Embeds `checkReservationAgainstAvailability`.  `seatsLeft` is the
snapshot argument passed by the caller; `st` is the service state read by
`isAreaDisabled`.  When a preferred area is set its config is looked up in
`getAvailableSeatingAreas` (with `AreaKey` the lookup always succeeds, but
the source's fall-through to the any-area branch is kept). -/
def checkReservationAgainstAvailability (st : ServiceState) (rd : Candidate)
    (seatsLeft : AreaKey → Option Int) : Bool :=
  if rd.datetime = none then false
  else
    let requiredSeats := max 1 (rd.guests.getD 0)
    let prefCheck :=
      match rd.preferredArea with
      | some k =>
        match getAvailableSeatingAreas.find? (fun a => a.value = k) with
        | some cfg =>
          some (if isAreaDisabled st cfg rd then false
            else
              let left := seatsLeft cfg.value
              let total := st.areaTotals cfg.value
              let available :=
                match left with
                | none => total
                | some n => n
              decide (available ≥ requiredSeats))
        | none => none
      | none => none
    match prefCheck with
    | some b => b
    | none => checkAnyArea st rd seatsLeft requiredSeats

/-- The `AreaConfig` belonging to an area key (used to state properties; a
lemma connects it to the source's `find?` lookup). -/
def areaConfigOf (k : AreaKey) : AreaConfig :=
  match k with
  | AreaKey.MainHall =>
    { value := AreaKey.MainHall, label := "Main Hall (12 or fewer)",
      maxGuests := 12, allowChildren := true, smokingAllowed := false }
  | AreaKey.Bar =>
    { value := AreaKey.Bar, label := "Bar (4 or fewer & no children)",
      maxGuests := 4, allowChildren := false, smokingAllowed := false }
  | AreaKey.RiverSide =>
    { value := AreaKey.RiverSide, label := "RiverSide (8 or fewer)",
      maxGuests := 8, allowChildren := true, smokingAllowed := false }
  | AreaKey.RiverSideSmoking =>
    { value := AreaKey.RiverSideSmoking,
      label := "RiverSide Smoking (6 or fewer & no children)",
      maxGuests := 6, allowChildren := false, smokingAllowed := true }

/-! ### Alert / suggestion service
(src/kafeApp/src/app/services/reservation-alert.service.ts,
`getSuggestedAlternatives` and `findAlternativeTimeSlots`) -/

/-- Embeds the `AlertAlternative` interface; `guests` and `datetime` are
declared optional in the source and never set by the suggestion engine. -/
structure AlertAlternative where
  label : String
  targetStep : Option Int
  value : Option AreaKey
  guests : Option Int
  datetime : Option String
  deriving Repr, DecidableEq

/-- One element of the availability-data array as consumed by the client:
a backend area name and the per-slot availability object (an `Option`
because `areaData.availability` may be absent); `capacity` is carried along
but not read by the suggestion engine. -/
structure AreaData where
  name : String
  capacity : Option Int
  availability : Option (List (String × SlotAvail))
  deriving Repr, DecidableEq

/-- Embeds the `areaNameMap` translating backend area names to frontend
area keys ('unknown name' gives `none`). -/
def areaNameMap (name : String) : Option AreaKey :=
  if name = "Main Hall" then some AreaKey.MainHall
  else if name = "Bar" then some AreaKey.Bar
  else if name = "Riverside" then some AreaKey.RiverSide
  else if name = "Riverside Smoking" then some AreaKey.RiverSideSmoking
  else none

/-- JavaScript `a ?? b ?? 0` over two nullable numbers. -/
def jsNullish2 (a b : Option Int) : Int :=
  match a with
  | some n => n
  | none =>
    match b with
    | some m => m
    | none => 0

/-- JavaScript `list.length ? Math.max(...list) : 0`. -/
def mathMaxList : List Int → Int
  | [] => 0
  | x :: xs => xs.foldl max x

/-- Two-digit zero padding, `String(n).padStart(2, "0")`. -/
def pad2 (n : Nat) : String :=
  if n < 10 then "0" ++ toString n else toString n

/-- The `HH:MM` slot label derived from the candidate's datetime via
`getHours`/`getMinutes`; an absent datetime parses as an Invalid Date whose
components render as `NaN`. -/
def currentSlotLabel (d : Option JsDateTime) : String :=
  match d with
  | some dt => pad2 dt.hour ++ ":" ++ pad2 dt.minute
  | none => "NaN:NaN"

/-- Insertion step of a straightforward insertion sort used to model
JavaScript `Array.prototype.sort` and the SQL `ORDER BY` clause. -/
def insertSorted {α : Type} (le : α → α → Bool) (x : α) : List α → List α
  | [] => [x]
  | y :: ys => if le x y then x :: y :: ys else y :: insertSorted le x ys

/-- Sort a list by the given boolean relation (insertion sort). -/
def sortByRel {α : Type} (le : α → α → Bool) (l : List α) : List α :=
  l.foldr (insertSorted le) []

/-- Worker for `dedupFirst`.  The fuel argument only makes the recursion
structural: filtering never lengthens the list, so with fuel starting at
the list length the zero-fuel branch is unreachable. -/
def dedupFirstAux {α : Type} [DecidableEq α] : Nat → List α → List α
  | _, [] => []
  | 0, l => l
  | fuel + 1, x :: xs => x :: dedupFirstAux fuel (xs.filter (fun y => y ≠ x))

/-- Deduplication keeping the first occurrence, as a JavaScript `Set`
does when filled by iteration. -/
def dedupFirst {α : Type} [DecidableEq α] (l : List α) : List α :=
  dedupFirstAux l.length l

/-- Lookup `availability?.[slot]` in the modelled availability object. -/
def lookupSlot (av : Option (List (String × SlotAvail))) (slot : String) :
    Option SlotAvail :=
  match av with
  | none => none
  | some entries => (entries.find? (fun p => p.1 = slot)).map Prod.snd

/-- Embeds `findAlternativeTimeSlots`: collect every distinct slot label of
the snapshot, keep those different from the current slot that some
non-disabled area can accommodate, sort lexicographically and keep at
most 3. -/
def findAlternativeTimeSlots (st : ServiceState) (currentTimeSlot : String)
    (requiredSeats : Int) (rd : Candidate) (availabilityData : List AreaData) :
    List String :=
  let candidateAreas := getAvailableSeatingAreas.filter (fun a => ¬isAreaDisabled st a rd)
  let allTimeSlots := dedupFirst (availabilityData.flatMap (fun areaData =>
    match areaData.availability with
    | some entries => entries.map Prod.fst
    | none => []))
  let viable := allTimeSlots.filter (fun timeSlot =>
    timeSlot ≠ currentTimeSlot ∧
      candidateAreas.any (fun area =>
        match availabilityData.find? (fun a => areaNameMap a.name = some area.value) with
        | none => false
        | some areaData =>
          match lookupSlot areaData.availability timeSlot with
          | none => false
          | some slotData => decide (slotData.available ≥ requiredSeats)))
  (sortByRel (fun a b => decide (a ≤ b)) viable).take 3

/-- First suggestion block of `getSuggestedAlternatives` (reduce the party
size, form step 4). -/
def suggestReduceParty (st : ServiceState) (rd : Candidate)
    (seatsLeft areaTotals : AreaKey → Option Int) : List AlertAlternative :=
  if jsGtOpt rd.guests 1 then
    let candidateAreas := getAvailableSeatingAreas.filter (fun a => ¬isAreaDisabled st a rd)
    let consideredAreas :=
      match rd.preferredArea with
      | some p =>
        let pref := candidateAreas.filter (fun a : AreaConfig => a.value = p)
        if pref.length > 0 then pref else candidateAreas
      | none => candidateAreas
    let availabilities := consideredAreas.map (fun area : AreaConfig =>
      jsNullish2 (seatsLeft area.value) (areaTotals area.value))
    let maxAvailable := mathMaxList availabilities
    if maxAvailable > 0 ∧ jsGtOpt rd.guests maxAvailable then
      [{ label := "Reduce party size to " ++ toString maxAvailable ++ " guests",
         targetStep := some 4, value := none, guests := none, datetime := none }]
    else []
  else []

/-- Second suggestion block (switch to non-smoking, form step 6). -/
def suggestNonSmoking (rd : Candidate) (seatsLeft areaTotals : AreaKey → Option Int)
    (requiredSeats : Int) : List AlertAlternative :=
  if rd.smoking then
    let nonSmokingAreas :=
      (getAvailableSeatingAreas.filter (fun a : AreaConfig =>
        ¬a.smokingAllowed ∧ jsLeOpt rd.guests a.maxGuests)).filter (fun a : AreaConfig =>
          ¬(jsGtOpt rd.children 0 ∧ a.value = AreaKey.Bar))
    let hasNonSmokingAvailability := nonSmokingAreas.any (fun area : AreaConfig =>
      decide (jsNullish2 (seatsLeft area.value) (areaTotals area.value) ≥ requiredSeats))
    if hasNonSmokingAvailability then
      [{ label := "Change to non-smoking", targetStep := some 6,
         value := none, guests := none, datetime := none }]
    else []
  else []

/-- Third suggestion block (drop children so the Bar becomes available,
form step 5). -/
def suggestDropChildren (rd : Candidate) (seatsLeft areaTotals : AreaKey → Option Int)
    (requiredSeats : Int) : List AlertAlternative :=
  if jsGtOpt rd.children 0 ∧ jsLeOpt rd.guests 4 then
    let barAvailable := jsNullish2 (seatsLeft AreaKey.Bar) (areaTotals AreaKey.Bar)
    if barAvailable ≥ requiredSeats then
      [{ label := "Book without children (Bar available)", targetStep := some 5,
         value := none, guests := none, datetime := none }]
    else []
  else []

/-- Fourth suggestion block (switch the preferred area, form step 7). -/
def suggestSwitchArea (st : ServiceState) (rd : Candidate)
    (seatsLeft areaTotals : AreaKey → Option Int) (requiredSeats : Int) :
    List AlertAlternative :=
  match rd.preferredArea with
  | some preferred =>
    let prefAvailable :=
      match getAvailableSeatingAreas.find? (fun a => a.value = preferred) with
      | some prefConfig =>
        if ¬isAreaDisabled st prefConfig rd then
          jsNullish2 (seatsLeft prefConfig.value) (areaTotals prefConfig.value)
        else 0
      | none => 0
    if prefAvailable < requiredSeats then
      let otherAreas := getAvailableSeatingAreas.filter (fun a =>
        a.value ≠ preferred ∧ ¬isAreaDisabled st a rd)
      let suitable := otherAreas.filter (fun a =>
        decide (jsNullish2 (seatsLeft a.value) (areaTotals a.value) ≥ requiredSeats))
      (suitable.take 3).map (fun a =>
        { label := "Change preferred area to " ++ a.label, targetStep := some 7,
          value := some a.value, guests := none, datetime := none })
    else []
  | none => []

/-- Fifth suggestion block (try a different time slot, form step 0). -/
def suggestSwitchTime (st : ServiceState) (rd : Candidate)
    (availabilityData : List AreaData) (requiredSeats : Int) : List AlertAlternative :=
  if availabilityData.length > 0 then
    let currentTimeSlot := currentSlotLabel rd.datetime
    let alternativeTimes :=
      findAlternativeTimeSlots st currentTimeSlot requiredSeats rd availabilityData
    if alternativeTimes.length > 0 then
      [{ label := "Try different time (" ++
           String.intercalate ", " (alternativeTimes.take 2) ++
           (if alternativeTimes.length > 2 then "..." else "") ++ ")",
         targetStep := some 0, value := none, guests := none, datetime := none }]
    else []
  else []

/-- Embeds `getSuggestedAlternatives`.  The source function pushes onto one
array from five independent blocks in a fixed order; each block is the
named segment above and the result is their concatenation.  `st` is the
availability-service state read by `isAreaDisabled`; `seatsLeft` and
`areaTotals` are the explicit record arguments;
`requiredSeats = max(1, floor(guests || 0))` is computed once at the top. -/
def getSuggestedAlternatives (st : ServiceState) (rd : Candidate)
    (availabilityData : List AreaData) (seatsLeft : AreaKey → Option Int)
    (areaTotals : AreaKey → Option Int) : List AlertAlternative :=
  let requiredSeats := max 1 (rd.guests.getD 0)
  suggestReduceParty st rd seatsLeft areaTotals ++
    suggestNonSmoking rd seatsLeft areaTotals requiredSeats ++
    suggestDropChildren rd seatsLeft areaTotals requiredSeats ++
    suggestSwitchArea st rd seatsLeft areaTotals requiredSeats ++
    suggestSwitchTime st rd availabilityData requiredSeats

/-! ### String sanitization
(identical helper in src/unnamed/part_004, src/server/routes/duplicateBookingCheck.js
and the socket service inside reservation-alert.service.ts) -/

/-- Code points of the single-quote variants removed by `sanitizeString`
(U+2018, U+2019, U+201A, U+201B, U+2032 and the straight quote U+0027). -/
def quoteCodes : List Nat := [0x2018, 0x2019, 0x201A, 0x201B, 0x2032, 0x27]

/-- Global replacement of `--` by the empty string, scanning left to right
as `String.prototype.replace(/--/g, "")` does. -/
def removeDoubleDash : List Char → List Char
  | '-' :: '-' :: rest => removeDoubleDash rest
  | c :: rest => c :: removeDoubleDash rest
  | [] => []

/-- Scan for the nearest closing `*/`; `some rest` drops everything through
it, `none` means no closing marker exists in the input. -/
def dropToStarSlash : List Char → Option (List Char)
  | '*' :: '/' :: rest => some rest
  | _ :: rest => dropToStarSlash rest
  | [] => none

/-- Worker for `removeBlockComments`.  The fuel argument only makes the
recursion structural: every recursive call strictly shrinks the character
list, so with fuel starting at the list length the zero-fuel branch is
unreachable. -/
def removeBlockCommentsAux : Nat → List Char → List Char
  | _, [] => []
  | 0, l => l
  | fuel + 1, '/' :: '*' :: rest =>
    match dropToStarSlash rest with
    | some rest2 => removeBlockCommentsAux fuel rest2
    | none => '/' :: '*' :: rest
  | fuel + 1, c :: rest => c :: removeBlockCommentsAux fuel rest

/-- Global removal of lazy block comments, `replace(/\/\*[\s\S]*?\*\//g, "")`:
each `/*` is paired with the nearest following `*/`; a `/*` with no closing
marker anywhere matches nothing (and then neither can any later `/*`). -/
def removeBlockComments (l : List Char) : List Char :=
  removeBlockCommentsAux l.length l

/-- JavaScript `\w`: ASCII letters, digits and the underscore. -/
def isJsWordChar (c : Char) : Bool :=
  c.isAlphanum || c = '_'

/-- The keyword blacklist of `sanitizeString`. -/
def sqlKeywords : List String :=
  ["SELECT", "UNION", "DROP", "INSERT", "DELETE", "UPDATE"]

/-- Worker for `stripSqlKeywords`; fuel as in `removeBlockCommentsAux`. -/
def stripSqlKeywordsAux : Nat → List Char → List Char
  | _, [] => []
  | 0, l => l
  | fuel + 1, c :: rest =>
    if isJsWordChar c then
      let run := (c :: rest).takeWhile isJsWordChar
      let remainder := (c :: rest).dropWhile isJsWordChar
      (if sqlKeywords.contains (String.mk (run.map Char.toUpper)) then [] else run) ++
        stripSqlKeywordsAux fuel remainder
    else c :: stripSqlKeywordsAux fuel rest

/-- Global removal of `/\b(SELECT|UNION|DROP|INSERT|DELETE|UPDATE)\b/ig`:
because every keyword consists of word characters, a match is exactly a
maximal word-character run equal (case-insensitively) to a keyword. -/
def stripSqlKeywords (l : List Char) : List Char :=
  stripSqlKeywordsAux l.length l

/-- Worker for `collapseWhitespace`; fuel as in `removeBlockCommentsAux`. -/
def collapseWhitespaceAux : Nat → List Char → List Char
  | _, [] => []
  | 0, l => l
  | fuel + 1, c :: rest =>
    if c.isWhitespace then
      ' ' :: collapseWhitespaceAux fuel (rest.dropWhile Char.isWhitespace)
    else c :: collapseWhitespaceAux fuel rest

/-- Replacement of every whitespace run by a single space,
`replace(/\s+/g, " ")`. -/
def collapseWhitespace (l : List Char) : List Char :=
  collapseWhitespaceAux l.length l

/-- The `trim` of JavaScript strings over a character list: drop leading
and trailing whitespace. -/
def trimChars (cs : List Char) : List Char :=
  ((cs.dropWhile Char.isWhitespace).reverse.dropWhile Char.isWhitespace).reverse

/-- Embeds `sanitizeString(str, maxLength)`: trim, drop `;`/`#`/`\`, drop
single-quote variants, remove `--`, remove lazy block comments, remove the
SQL keyword blacklist, collapse whitespace, trim, truncate. -/
def sanitizeString (str : String) (maxLength : Nat) : String :=
  let cs := trimChars str.toList
  let cs := cs.filter (fun c => ¬(c = ';' ∨ c = '#' ∨ c = '\\'))
  let cs := cs.filter (fun c => ¬quoteCodes.contains c.toNat)
  let cs := removeDoubleDash cs
  let cs := removeBlockComments cs
  let cs := stripSqlKeywords cs
  let cs := collapseWhitespace cs
  String.mk ((trimChars cs).take maxLength)

/-- Split a character list at every occurrence of the separator
(`String.prototype.split` on one character). -/
def splitOnChar (sep : Char) : List Char → List (List Char)
  | [] => [[]]
  | c :: rest =>
    if c = sep then [] :: splitOnChar sep rest
    else
      match splitOnChar sep rest with
      | r :: rs => (c :: r) :: rs
      | [] => [[c]]

/-- Executable form of the test `/^[^\s@]+@[^\s@]+\.[^\s@]+$/.test(s)`:
the string decomposes as `a@b.c` with `a`, `b`, `c` nonempty and free of
whitespace and `@`.  Equivalently: exactly one `@`; a nonempty local part;
no whitespace anywhere; and a `.` in the domain that is neither its first
nor its last character. -/
def emailRegexTest (s : String) : Bool :=
  match splitOnChar '@' s.toList with
  | [localPart, domain] =>
    decide (localPart ≠ []) &&
      localPart.all (fun c => !c.isWhitespace) &&
      domain.all (fun c => !c.isWhitespace) &&
      ((domain.drop 1).dropLast.contains '.')
  | _ => false

/-- Embeds `sanitizeEmail`: sanitize to 45 chars, then test the pattern. -/
def sanitizeEmail (email : String) : Except String String :=
  let trimmed := sanitizeString email 45
  if emailRegexTest trimmed then Except.ok trimmed
  else Except.error "Invalid email format"

/-- Embeds `sanitizePhone`: sanitize to 20 chars, count the digits
(`replace(/\D/g, "")`), and require 10 to 15 of them. -/
def sanitizePhone (phone : String) : Except String String :=
  let trimmed := sanitizeString phone 20
  let digitsOnly := trimmed.toList.filter Char.isDigit
  if digitsOnly.length < 10 ∨ digitsOnly.length > 15 then
    Except.error "Invalid phone number: must be 10-15 digits"
  else Except.ok trimmed

/-! ### Reservation sanitization and the commit pipeline
(socket service inside src/kafeApp/src/app/services/reservation-alert.service.ts:
`sanitizeReservationData`, `createReservation`, the `reservation:created`
handler and `refreshReservationsForClients`) -/

/-- Left-pad a numeral with zeros to the given width. -/
def padZeros (width : Nat) (n : Nat) : String :=
  let s := toString n
  String.mk (List.replicate (width - s.length) '0') ++ s

/-- The `YYYY-MM-DD HH:MM:SS` rendering produced by
`dt.toISOString().slice(0, 19).replace("T", " ")` (the embedding keeps the
wall-clock components; the spec treats all times as naive local values). -/
def formatMySqlDatetime (dt : JsDateTime) : String :=
  padZeros 4 dt.year ++ "-" ++ padZeros 2 dt.month ++ "-" ++ padZeros 2 dt.day ++ " " ++
    padZeros 2 dt.hour ++ ":" ++ padZeros 2 dt.minute ++ ":" ++ padZeros 2 dt.second

/-- Embeds the socket service's `sanitizeDatetime`: a missing value
(`!datetime`) or an unparseable one (`isNaN(dt.getTime())`) throws; both are
modelled by `none`.  A parsed datetime is rendered in MySQL format. -/
def sanitizeDatetimeSql (datetime : Option JsDateTime) : Except String String :=
  match datetime with
  | none => Except.error "Invalid datetime format"
  | some dt => Except.ok (formatMySqlDatetime dt)

/-- Embeds `sanitizeInt(value, min, max)`: a non-numeric value (`isNaN`,
modelled by `none`) or one outside the bounds throws.  Numeric inputs are
modelled by their `parseInt` image, which is an integer. -/
def sanitizeInt (value : Option Int) (lo hi : Int) : Except String Int :=
  match value with
  | none => Except.error ("Invalid integer: must be between " ++ toString lo ++
      " and " ++ toString hi)
  | some n =>
    if n < lo ∨ n > hi then
      Except.error ("Invalid integer: must be between " ++ toString lo ++
        " and " ++ toString hi)
    else Except.ok n

/-- Embeds `sanitizeBool`: `value ? 1 : 0`. -/
def sanitizeBool (value : Bool) : Nat :=
  if value then 1 else 0

/-- Embeds the `areaMap` record sending each known preferred-area key to
its storage id; any other string gives `undefined` (`none`). -/
def areaMap (s : String) : Option Nat :=
  if s = "MainHall" then some 1
  else if s = "Bar" then some 2
  else if s = "RiverSide" then some 3
  else if s = "RiverSideSmoking" then some 4
  else none

/-- The raw reservation payload received over the socket.  Numeric fields
are modelled by their `parseInt` image (`none` when `NaN`), the datetime by
its `Date` parse (`none` when missing or invalid). -/
structure RawReservation where
  name : String
  email : String
  phone : String
  guests : Option Int
  datetime : Option JsDateTime
  preferredArea : String
  children : Option Int
  smoking : Bool
  birthday : Bool
  birthdayGuestName : String
  deriving Repr, DecidableEq

/-- The sanitized record returned by `sanitizeReservationData`. -/
structure SanitizedReservation where
  name : String
  email : String
  phone : String
  guests : Int
  datetime : String
  area_id : Nat
  children : Int
  smoking : Nat
  birthday : Nat
  birthday_guest_name : Option String
  deriving Repr, DecidableEq

/-- Embeds `sanitizeReservationData`.  The area id is resolved first (the
source computes `areaId` and throws on an unknown area before building the
result object); the remaining validations run in the result object's field
order: email, phone, guests, datetime, children. -/
def sanitizeReservationData (data : RawReservation) : Except String SanitizedReservation :=
  match areaMap data.preferredArea with
  | none => Except.error "Invalid preferred area"
  | some areaId => do
    let email ← sanitizeEmail data.email
    let phone ← sanitizePhone data.phone
    let guests ← sanitizeInt data.guests 1 12
    let datetime ← sanitizeDatetimeSql data.datetime
    let children ← sanitizeInt data.children 0 12
    Except.ok
      { name := sanitizeString data.name 45
        email := email
        phone := phone
        guests := guests
        datetime := datetime
        area_id := areaId
        children := children
        smoking := sanitizeBool data.smoking
        birthday := sanitizeBool data.birthday
        birthday_guest_name :=
          if data.birthdayGuestName ≠ "" then some (sanitizeString data.birthdayGuestName 100)
          else none }

/-- A row of the `users` table. -/
structure UserRow where
  user_id : Nat
  name : String
  email : String
  phone_number : String
  deriving Repr, DecidableEq

/-- A row of the `reservations` table. -/
structure ReservationRow where
  reservation_id : Nat
  user_id : Nat
  guests : Int
  datetime : String
  area_id : Nat
  children : Int
  smoking : Nat
  birthday : Nat
  birthday_guest_name : Option String
  deriving Repr, DecidableEq

/-- Database state visible to the commit pipeline; the counters model the
AUTO_INCREMENT ids handed out on insert. -/
structure DBState where
  users : List UserRow
  reservations : List ReservationRow
  nextUserId : Nat
  nextReservationId : Nat
  deriving Repr, DecidableEq

/-- Observable events of a commit-pipeline run, in execution order. -/
inductive Event where
  | getConn
  | beginTx
  | selectUser
  | updateUser
  | insertUser
  | insertReservation
  | txCommit
  | txRollback
  | release
  | ackOk
  | ackError
  | broadcast
  deriving Repr, DecidableEq

/-- Failure injection for each fallible database call of the pipeline. -/
structure FailureOracle where
  failGetConnection : Bool
  failSelectUser : Bool
  failUserWrite : Bool
  failInsertReservation : Bool
  failCommit : Bool
  deriving Repr, DecidableEq

/-- Result of a successful `createReservation`. -/
structure CreateResult where
  reservationId : Nat
  userId : Nat
  deriving Repr, DecidableEq

/-- Tail of `createReservation` after the user upsert: insert the
reservation row on the transaction's staged state, then commit; on any
failure the catch block rolls back (discarding the staged writes) and the
finally block releases the connection. -/
def finishReservation (db staged : DBState) (userId : Nat) (s : SanitizedReservation)
    (o : FailureOracle) (tr : List Event) :
    List Event × Except String CreateResult × DBState :=
  if o.failInsertReservation then
    (tr ++ [Event.txRollback, Event.release], Except.error "reservation insert failed", db)
  else
    let staged2 : DBState :=
      { staged with
        reservations := staged.reservations ++
          [{ reservation_id := staged.nextReservationId
             user_id := userId
             guests := s.guests
             datetime := s.datetime
             area_id := s.area_id
             children := s.children
             smoking := s.smoking
             birthday := s.birthday
             birthday_guest_name := s.birthday_guest_name }]
        nextReservationId := staged.nextReservationId + 1 }
    if o.failCommit then
      (tr ++ [Event.insertReservation, Event.txRollback, Event.release],
        Except.error "commit failed", db)
    else
      (tr ++ [Event.insertReservation, Event.txCommit, Event.release],
        Except.ok { reservationId := staged.nextReservationId, userId := userId }, staged2)

/-- Embeds `createReservation`: sanitize, acquire a connection, begin a
transaction, look up the user by email or phone (`LIMIT 1` is a `find?`),
update or insert the user on the staged state, insert the reservation, and
commit.  The transaction discipline of the driver is modelled by keeping
staged writes separate from `db` and installing them only at commit; every
caught error rolls back (the returned state is the original `db`) and the
connection is always released after being acquired.  The returned triple is
(event trace, result reported to the caller, resulting database state). -/
def createReservation (db : DBState) (raw : RawReservation) (o : FailureOracle) :
    List Event × Except String CreateResult × DBState :=
  match sanitizeReservationData raw with
  | Except.error e => ([], Except.error e, db)
  | Except.ok s =>
    if o.failGetConnection then ([], Except.error "getConnection failed", db)
    else if o.failSelectUser then
      ([Event.getConn, Event.beginTx, Event.txRollback, Event.release],
        Except.error "select user failed", db)
    else
      match db.users.find? (fun u => u.email = s.email ∨ u.phone_number = s.phone) with
      | some u =>
        if o.failUserWrite then
          ([Event.getConn, Event.beginTx, Event.selectUser, Event.txRollback, Event.release],
            Except.error "user update failed", db)
        else
          let staged : DBState :=
            { db with users := db.users.map (fun v =>
                if v.user_id = u.user_id then
                  { v with name := s.name, email := s.email, phone_number := s.phone }
                else v) }
          finishReservation db staged u.user_id s o
            [Event.getConn, Event.beginTx, Event.selectUser, Event.updateUser]
      | none =>
        if o.failUserWrite then
          ([Event.getConn, Event.beginTx, Event.selectUser, Event.txRollback, Event.release],
            Except.error "user insert failed", db)
        else
          let staged : DBState :=
            { db with
              users := db.users ++
                [{ user_id := db.nextUserId, name := s.name, email := s.email,
                   phone_number := s.phone }]
              nextUserId := db.nextUserId + 1 }
          finishReservation db staged db.nextUserId s o
            [Event.getConn, Event.beginTx, Event.selectUser, Event.insertUser]

/-- Embeds the `reservation:created` socket handler: await
`createReservation`; on success acknowledge and then broadcast
`reservations:refresh` to the other clients
(`refreshReservationsForClients`); on failure acknowledge the error and
broadcast nothing. -/
def handleReservationCreated (db : DBState) (raw : RawReservation) (o : FailureOracle) :
    List Event × DBState :=
  let r := createReservation db raw o
  match r.2.1 with
  | Except.ok _ => (r.1 ++ [Event.ackOk, Event.broadcast], r.2.2)
  | Except.error _ => (r.1 ++ [Event.ackError], r.2.2)

/-! ### Duplicate booking check (src/server/routes/duplicateBookingCheck.js) -/

/-- A row of the duplicate-check query: `reservations` joined with `users`,
with the reservation start in minutes on the shared timeline. -/
structure JoinedReservationRow where
  reservation_id : Nat
  datetime : Int
  guests : Int
  area_id : Nat
  email : String
  phone_number : String
  deriving Repr, DecidableEq

/-- The `conflictingReservation` payload of a duplicate response. -/
structure ConflictingReservation where
  reservation_id : Nat
  datetime : Int
  guests : Int
  area_id : Nat
  deriving Repr, DecidableEq

/-- The JSON result of the duplicate check. -/
structure DuplicateCheckResult where
  duplicate : Bool
  matchedBy : Option String
  conflictingReservation : Option ConflictingReservation
  deriving Repr, DecidableEq

/-- Embeds the SQL of the route: select the joined rows whose user matches
the sanitized email or phone (an absent parameter is passed as `''`), in
`ORDER BY r.datetime DESC` order. -/
def duplicateQueryRows (rows : List JoinedReservationRow) (email phone : Option String) :
    List JoinedReservationRow :=
  sortByRel (fun a b => decide (b.datetime ≤ a.datetime))
    (rows.filter (fun r => r.email = email.getD "" ∨ r.phone_number = phone.getD ""))

/-- Embeds the scan of the route: walk the ordered rows and answer with the
first whose 2-hour span overlaps the requested 2-hour span
(`resStart < requestedEnd && resEnd > requestedStart`); tag it `"email"`
when an email was provided and equals the row's email, else `"phone"`. -/
def checkDuplicate (rows : List JoinedReservationRow) (email phone : Option String)
    (requestedStart : Int) : DuplicateCheckResult :=
  let requestedEnd := requestedStart + 120
  match (duplicateQueryRows rows email phone).find? (fun r =>
      decide (r.datetime < requestedEnd ∧ r.datetime + 120 > requestedStart)) with
  | none => { duplicate := false, matchedBy := none, conflictingReservation := none }
  | some r =>
    { duplicate := true
      matchedBy := some (if email.isSome ∧ r.email = email.getD "" then "email" else "phone")
      conflictingReservation := some
        { reservation_id := r.reservation_id, datetime := r.datetime,
          guests := r.guests, area_id := r.area_id } }

/-! ### Sample inputs used by the concrete witness statements -/

/-- A parsed sample datetime, 2025-07-25T19:00:00. -/
def sampleDateTime : JsDateTime :=
  { year := 2025, month := 7, day := 25, hour := 19, minute := 0, second := 0 }

/-- A raw reservation payload that passes every validation. -/
def sampleRaw : RawReservation :=
  { name := "Alice", email := "alice@example.com", phone := "1234567890",
    guests := some 2, datetime := some sampleDateTime, preferredArea := "Bar",
    children := some 0, smoking := false, birthday := false, birthdayGuestName := "" }

/-- The same payload with a missing/unparseable datetime. -/
def rawBadDatetime : RawReservation :=
  { sampleRaw with datetime := none }

/-- An empty database. -/
def emptyDB : DBState :=
  { users := [], reservations := [], nextUserId := 1, nextReservationId := 1 }

/-- The failure oracle of a fully successful run. -/
def oracleNoFail : FailureOracle :=
  { failGetConnection := false, failSelectUser := false, failUserWrite := false,
    failInsertReservation := false, failCommit := false }

/-- A failure oracle whose reservation insert fails. -/
def oracleFailInsert : FailureOracle :=
  { failGetConnection := false, failSelectUser := false, failUserWrite := false,
    failInsertReservation := true, failCommit := false }

/-- A service state whose every area has 5 seats left at the selected slot. -/
def sampleState : ServiceState :=
  { seatsLeft := fun _ => some 5, areaTotals := initialAreaTotals }

/-- A candidate preferring the Bar, 3 guests, no children, no smoking. -/
def sampleCandidate : Candidate :=
  { datetime := some sampleDateTime, guests := some 3, children := some 0,
    smoking := false, preferredArea := some AreaKey.Bar }

/-- A candidate with 3 guests and 2 children and no area preference. -/
def sampleCandidateChildren : Candidate :=
  { datetime := some sampleDateTime, guests := some 3, children := some 2,
    smoking := false, preferredArea := none }

/-- The drop-children suggestion as pushed by the suggestion engine. -/
def dropChildrenAlt : AlertAlternative :=
  { label := "Book without children (Bar available)", targetStep := some 5,
    value := none, guests := none, datetime := none }

/-- Whether an `Except` value is a success. -/
def exceptOk {ε α : Type} : Except ε α → Bool
  | Except.ok _ => true
  | Except.error _ => false

/-! ## Theorems -/

/-- C2: for every reservation start time and every slot, the overlap test
returns true iff `reservationStart < slotStart + 30` and
`reservationStart + 120 > slotStart` (half-open intervals, in minutes); a
reservation starting exactly at the slot's end does not overlap the slot,
and one starting strictly inside the slot always does. -/
theorem c2_overlap_test (resStart : Int) (s : Slot) :
    (reservationOverlapsSlot resStart s = true ↔
      (resStart < slotStartMin s + 30 ∧ resStart + 120 > slotStartMin s)) ∧
    reservationOverlapsSlot (slotStartMin s + 30) s = false ∧
    (∀ r : Int, slotStartMin s < r → r < slotStartMin s + 30 →
      reservationOverlapsSlot r s = true) := by
  refine ⟨?_, ?_, ?_⟩
  · simp [reservationOverlapsSlot]
  · simp only [reservationOverlapsSlot, decide_eq_false_iff_not, not_and, not_lt]
    omega
  · intro r h1 h2
    simp only [reservationOverlapsSlot, decide_eq_true_eq]
    omega

/-- Witness for C2 at the 18:00 slot: a reservation at 18:30 (the slot's
end) does not overlap it, one at 18:05 does. -/
theorem c2_overlap_test_witness :
    reservationOverlapsSlot (slotStartMin (18, 0) + 30) (18, 0) = false ∧
    reservationOverlapsSlot 1085 (18, 0) = true :=
  ⟨(c2_overlap_test 0 (18, 0)).2.1,
    (c2_overlap_test 1085 (18, 0)).2.2 1085 (by decide) (by decide)⟩

/-- Helper: the accumulating fold of `calculateAreaAvailability` computes
the sum of the guests of the overlapping reservations. -/
theorem foldl_if_add (l : List ResEntry) (slot : Slot) (acc : Int) :
    l.foldl (fun a r => if reservationOverlapsSlot r.datetime slot then a + r.guests else a) acc
      = acc + reservedSum l slot := by
  induction l generalizing acc with
  | nil => simp [reservedSum]
  | cons x xs ih =>
    by_cases h : reservationOverlapsSlot x.datetime slot
    · simp only [List.foldl_cons, h, if_true, ih, reservedSum, List.filter_cons, h]
      simp [reservedSum]
      ring
    · simp only [List.foldl_cons, h, if_false, ih, reservedSum, List.filter_cons]
      simp [reservedSum, h]

/-- C1: for every integer capacity and every list of committed reservations,
the availability computation is keyed by exactly the 9 half-hour slots
18:00, 18:30, …, 22:00 in grid order, and each slot's `reserved` is the sum
of guests over the reservations overlapping the slot while `available` is
`max 0 (capacity - reserved)`, hence never negative. -/
theorem c1_area_availability (capacity : Int) (rs : List ResEntry) :
    (calculateAreaAvailability capacity rs).map Prod.fst = generateTimeSlots ∧
    generateTimeSlots =
      [(18, 0), (18, 30), (19, 0), (19, 30), (20, 0), (20, 30), (21, 0), (21, 30), (22, 0)] ∧
    ∀ p ∈ calculateAreaAvailability capacity rs,
      p.2.reserved = reservedSum rs p.1 ∧
      p.2.available = max 0 (capacity - reservedSum rs p.1) ∧
      0 ≤ p.2.available := by
  refine ⟨by simp [calculateAreaAvailability, Function.comp_def], by decide, ?_⟩
  intro p hp
  simp only [calculateAreaAvailability, List.mem_map] at hp
  obtain ⟨slot, hslot, rfl⟩ := hp
  refine ⟨?_, ?_, ?_⟩
  · simpa using foldl_if_add rs slot 0
  · simp only []
    rw [show rs.foldl (fun a r => if reservationOverlapsSlot r.datetime slot then a + r.guests else a) 0 = reservedSum rs slot from by simpa using foldl_if_add rs slot 0]
  · exact le_max_left 0 _

/-- Witness for C1, the spec's Scenario A: Bar capacity 10 with one
reservation of 4 guests at 18:00 gives reserved 4 and available 6 at the
18:30 slot. -/
theorem c1_area_availability_witness :
    ((18, 30), ({ reserved := 4, available := 6 } : SlotAvail)) ∈
      calculateAreaAvailability 10 [{ datetime := 1080, guests := 4 }] ∧
    reservedSum [{ datetime := 1080, guests := 4 }] (18, 30) = 4 := by
  have h := c1_area_availability 10 [{ datetime := 1080, guests := 4 }]
  refine ⟨by decide, ?_⟩
  have hmem : ((18, 30), ({ reserved := 4, available := 6 } : SlotAvail)) ∈
      calculateAreaAvailability 10 [{ datetime := 1080, guests := 4 }] := by decide
  have := (h.2.2 _ hmem).1
  simpa using this.symm

/-- C7: the availability-cache read returns the cached data exactly when an
entry exists, its date equals the requested date, and its age is at most
2 minutes; in every other case (no entry, different date, or age strictly
greater than 2 minutes) the read misses and returns `null`. -/
theorem c7_cache_read {α : Type} (cache : Option (AvailabilityCacheEntry α))
    (date : String) (now : Int) :
    getAvailability cache date now =
      match cache with
      | none => none
      | some c =>
        if c.date = date ∧ now - c.timestamp ≤ 2 * 60 * 1000 then some c.data
        else none := by
  cases cache with
  | none => rfl
  | some c =>
    by_cases h1 : c.date = date
    · by_cases h2 : now - c.timestamp ≤ 2 * 60 * 1000
      · have hexp : decide (now - c.timestamp > AVAILABILITY_TTL_MS) = false := by
          simp only [AVAILABILITY_TTL_MS, decide_eq_false_iff_not, not_lt]
          omega
        simp [getAvailability, isAvailabilityExpired, h1, h2, hexp]
        omega
      · have hexp : decide (now - c.timestamp > AVAILABILITY_TTL_MS) = true := by
          simp only [AVAILABILITY_TTL_MS, decide_eq_true_eq]
          omega
        simp [getAvailability, isAvailabilityExpired, h1, h2, hexp]
        rw [if_neg (by omega : ¬(now ≤ 120000 + c.timestamp))]
    · simp [getAvailability, isAvailabilityExpired, h1]

/-- C10: the fetch-availability route counts only committed reservations on
the requested date starting between 18:00 and 22:00 inclusive; prepending
any other reservation row — such as one at 17:30 on the same date, whose
2-hour span does overlap the 18:00 slot — leaves every area's computed
availability unchanged. -/
theorem c10_window_filter (db : List DbReservationRow) (date : String)
    (area : AreaRow) (r : DbReservationRow)
    (h : ¬(r.date = date ∧ 1080 ≤ r.time ∧ r.time ≤ 1320)) :
    routeAreaAvailability (r :: db) date area = routeAreaAvailability db date area := by
  simp only [routeAreaAvailability, fetchReservationsForDate, List.filter_cons]
  rw [if_neg]
  simp [h]

/-- Witness for C10: a 17:30 reservation on the requested date overlaps the
18:00 slot, yet adding it to the database leaves the Bar's availability
exactly as if it were absent. -/
theorem c10_window_filter_witness :
    reservationOverlapsSlot 1050 (18, 0) = true ∧
    routeAreaAvailability [{ area_id := 2, guests := 4, date := "2025-07-25", time := 1050 }]
        "2025-07-25"
        { area_id := 2, name := "Bar", capacity := 10, allows_children := false,
          allows_smoking := false } =
      routeAreaAvailability [] "2025-07-25"
        { area_id := 2, name := "Bar", capacity := 10, allows_children := false,
          allows_smoking := false } :=
  ⟨by decide,
    c10_window_filter [] "2025-07-25"
      { area_id := 2, name := "Bar", capacity := 10, allows_children := false,
        allows_smoking := false }
      { area_id := 2, guests := 4, date := "2025-07-25", time := 1050 }
      (by decide)⟩

/-- Helper: the source's lookup of the preferred area's config always finds
the config belonging to the key. -/
theorem find_areaConfig (k : AreaKey) :
    getAvailableSeatingAreas.find? (fun a => a.value = k) = some (areaConfigOf k) := by
  cases k <;> rfl

/-- Helper: the config found for a key carries that key. -/
theorem areaConfigOf_value (k : AreaKey) : (areaConfigOf k).value = k := by
  cases k <;> rfl

/-- Helper: an area is disabled whenever one of the three eligibility rules
fires, whatever the seats left. -/
theorem isAreaDisabled_true_of_rules (st : ServiceState) (cfg : AreaConfig) (rd : Candidate)
    (h : (rd.smoking ∧ ¬cfg.smokingAllowed) ∨
      (rd.children.getD 0 > 0 ∧ ¬cfg.allowChildren) ∨
      rd.guests.getD 0 > cfg.maxGuests) :
    isAreaDisabled st cfg rd = true := by
  unfold isAreaDisabled
  by_cases h1 : rd.smoking ∧ ¬cfg.smokingAllowed
  · rw [if_pos h1]
  · rw [if_neg h1]
    by_cases h2 : rd.children.getD 0 > 0 ∧ ¬cfg.allowChildren
    · rw [if_pos h2]
    · rw [if_neg h2]
      by_cases h3 : rd.guests.getD 0 > cfg.maxGuests
      · rw [if_pos h3]
      · exact absurd h (by tauto)

/-- Helper: when none of the three eligibility rules fires, the area is
disabled exactly when the required seats exceed the remaining seats the
service currently holds for it. -/
theorem isAreaDisabled_eq_capacity (st : ServiceState) (cfg : AreaConfig) (rd : Candidate)
    (h1 : ¬(rd.smoking ∧ ¬cfg.smokingAllowed))
    (h2 : ¬(rd.children.getD 0 > 0 ∧ ¬cfg.allowChildren))
    (h3 : ¬(rd.guests.getD 0 > cfg.maxGuests)) :
    isAreaDisabled st cfg rd =
      decide (max 1 (rd.guests.getD 0) >
        (match st.seatsLeft cfg.value with
          | none => st.areaTotals cfg.value
          | some n => n)) := by
  unfold isAreaDisabled
  rw [if_neg h1, if_neg h2, if_neg h3]

/-- C3: with a preferred area set (and one consistent seats-left snapshot,
the one held by the service), the checker fails whenever the area is
disqualified — smoking requested but disallowed, children present but
disallowed, or guests above the area's maxGuests — and otherwise succeeds
exactly when the remaining seats at the candidate's slot (the area's full
capacity when the snapshot has no value) cover `max 1 (floor guests)`. -/
theorem c3_checker_preferred (st : ServiceState) (rd : Candidate)
    (sl : AreaKey → Option Int) (k : AreaKey)
    (hpref : rd.preferredArea = some k) (hdt : rd.datetime ≠ none)
    (hsl : st.seatsLeft = sl) :
    ((rd.smoking = true ∧ (areaConfigOf k).smokingAllowed = false) ∨
        (rd.children.getD 0 > 0 ∧ (areaConfigOf k).allowChildren = false) ∨
        rd.guests.getD 0 > (areaConfigOf k).maxGuests →
      checkReservationAgainstAvailability st rd sl = false) ∧
    (¬((rd.smoking = true ∧ (areaConfigOf k).smokingAllowed = false) ∨
        (rd.children.getD 0 > 0 ∧ (areaConfigOf k).allowChildren = false) ∨
        rd.guests.getD 0 > (areaConfigOf k).maxGuests) →
      (checkReservationAgainstAvailability st rd sl = true ↔
        (match sl k with
          | none => st.areaTotals k
          | some n => n) ≥ max 1 (rd.guests.getD 0))) := by
  subst hsl
  have hfind := find_areaConfig k
  have hval := areaConfigOf_value k
  constructor
  · intro hdisq
    have hdisq2 : (rd.smoking ∧ ¬(areaConfigOf k).smokingAllowed) ∨
        (rd.children.getD 0 > 0 ∧ ¬(areaConfigOf k).allowChildren) ∨
        rd.guests.getD 0 > (areaConfigOf k).maxGuests := by
      rcases hdisq with h | h | h
      · exact Or.inl ⟨h.1, by simp [h.2]⟩
      · exact Or.inr (Or.inl ⟨h.1, by simp [h.2]⟩)
      · exact Or.inr (Or.inr h)
    have hdis := isAreaDisabled_true_of_rules st (areaConfigOf k) rd hdisq2
    simp [checkReservationAgainstAvailability, hdt, hpref, hfind, hdis]
  · intro hnd
    have h1 : ¬(rd.smoking ∧ ¬(areaConfigOf k).smokingAllowed) := by
      intro hc
      exact hnd (Or.inl ⟨hc.1, by simpa using hc.2⟩)
    have h2 : ¬(rd.children.getD 0 > 0 ∧ ¬(areaConfigOf k).allowChildren) := by
      intro hc
      exact hnd (Or.inr (Or.inl ⟨hc.1, by simpa using hc.2⟩))
    have h3 : ¬(rd.guests.getD 0 > (areaConfigOf k).maxGuests) := by
      intro hc
      exact hnd (Or.inr (Or.inr hc))
    have hdis := isAreaDisabled_eq_capacity st (areaConfigOf k) rd h1 h2 h3
    rw [hval] at hdis
    simp only [checkReservationAgainstAvailability, hpref, hfind, hdis, hval]
    rw [if_neg hdt]
    by_cases hcap : max 1 (rd.guests.getD 0) >
        (match st.seatsLeft k with
          | none => st.areaTotals k
          | some n => n)
    · simp [hcap]
      omega
    · simp [hcap]
      try omega

/-- Witness for C3: 3 guests preferring the Bar with no children and no
smoking, with 5 seats left everywhere, pass the check. -/
theorem c3_checker_preferred_witness :
    checkReservationAgainstAvailability sampleState sampleCandidate
      sampleState.seatsLeft = true := by
  have h := c3_checker_preferred sampleState sampleCandidate sampleState.seatsLeft
    AreaKey.Bar rfl (by decide) rfl
  exact (h.2 (by decide)).mpr (by decide)

/-- Helper: membership in a conditional list with an empty alternative. -/
theorem mem_ite_nil_iff {α : Type} {a : α} {p : Prop} [Decidable p] {l : List α} :
    (a ∈ if p then l else []) ↔ p ∧ a ∈ l := by
  by_cases h : p <;> simp [h]

/-- Helper: every reduce-party suggestion targets form step 4. -/
theorem targetStep_of_mem_reduceParty {st : ServiceState} {rd : Candidate}
    {sl at_ : AreaKey → Option Int} {alt : AlertAlternative}
    (h : alt ∈ suggestReduceParty st rd sl at_) : alt.targetStep = some 4 := by
  simp only [suggestReduceParty, mem_ite_nil_iff, List.mem_singleton] at h
  obtain ⟨-, -, rfl⟩ := h
  rfl

/-- Helper: every non-smoking suggestion targets form step 6. -/
theorem targetStep_of_mem_nonSmoking {rd : Candidate} {sl at_ : AreaKey → Option Int}
    {req : Int} {alt : AlertAlternative}
    (h : alt ∈ suggestNonSmoking rd sl at_ req) : alt.targetStep = some 6 := by
  simp only [suggestNonSmoking, mem_ite_nil_iff, List.mem_singleton] at h
  obtain ⟨-, -, rfl⟩ := h
  rfl

/-- Helper: every switch-area suggestion targets form step 7. -/
theorem targetStep_of_mem_switchArea {st : ServiceState} {rd : Candidate}
    {sl at_ : AreaKey → Option Int} {req : Int} {alt : AlertAlternative}
    (h : alt ∈ suggestSwitchArea st rd sl at_ req) : alt.targetStep = some 7 := by
  unfold suggestSwitchArea at h
  cases hp : rd.preferredArea with
  | none =>
    rw [hp] at h
    exact absurd h (List.not_mem_nil _)
  | some p =>
    rw [hp] at h
    simp only [mem_ite_nil_iff, List.mem_map] at h
    obtain ⟨-, a, -, rfl⟩ := h
    rfl

/-- Helper: every switch-time suggestion targets form step 0. -/
theorem targetStep_of_mem_switchTime {st : ServiceState} {rd : Candidate}
    {ad : List AreaData} {req : Int} {alt : AlertAlternative}
    (h : alt ∈ suggestSwitchTime st rd ad req) : alt.targetStep = some 0 := by
  simp only [suggestSwitchTime, mem_ite_nil_iff, List.mem_singleton] at h
  obtain ⟨-, -, rfl⟩ := h
  rfl

/-- Helper: the drop-children segment contains only the drop-children
suggestion. -/
theorem eq_of_mem_suggestDropChildren {rd : Candidate} {sl at_ : AreaKey → Option Int}
    {req : Int} {alt : AlertAlternative}
    (h : alt ∈ suggestDropChildren rd sl at_ req) : alt = dropChildrenAlt := by
  simp only [suggestDropChildren, mem_ite_nil_iff, List.mem_singleton] at h
  obtain ⟨-, -, rfl⟩ := h
  rfl

/-- Helper: exact membership condition of the drop-children segment. -/
theorem mem_suggestDropChildren_iff {rd : Candidate} {sl at_ : AreaKey → Option Int}
    {req : Int} :
    dropChildrenAlt ∈ suggestDropChildren rd sl at_ req ↔
      ((jsGtOpt rd.children 0 ∧ jsLeOpt rd.guests 4) ∧
        jsNullish2 (sl AreaKey.Bar) (at_ AreaKey.Bar) ≥ req) := by
  simp only [suggestDropChildren, mem_ite_nil_iff, List.mem_singleton]
  constructor
  · rintro ⟨h1, h2, -⟩
    exact ⟨h1, h2⟩
  · rintro ⟨h1, h2⟩
    exact ⟨h1, h2, rfl⟩

/-- C9: for a candidate with integer guest and child counts and a known Bar
capacity, the rejected candidate receives the "drop children" alternative
iff children > 0, guests ≤ 4, and the Bar's remaining seats (its total
capacity when the seats-left value is unknown) cover `max 1 guests`; and
every alternative targeting the children form step (step 5) is exactly
that suggestion. -/
theorem c9_drop_children (st : ServiceState) (rd : Candidate) (ad : List AreaData)
    (sl at_ : AreaKey → Option Int) (g c barTot : Int)
    (hg : rd.guests = some g) (hc : rd.children = some c)
    (hbar : at_ AreaKey.Bar = some barTot) :
    (dropChildrenAlt ∈ getSuggestedAlternatives st rd ad sl at_ ↔
      (c > 0 ∧ g ≤ 4 ∧ (sl AreaKey.Bar).getD barTot ≥ max 1 g)) ∧
    (∀ alt ∈ getSuggestedAlternatives st rd ad sl at_,
      alt.targetStep = some 5 → alt = dropChildrenAlt) := by
  have hnull : jsNullish2 (sl AreaKey.Bar) (at_ AreaKey.Bar) = (sl AreaKey.Bar).getD barTot := by
    cases hsb : sl AreaKey.Bar <;> simp [jsNullish2, hbar, hsb]
  constructor
  · simp only [getSuggestedAlternatives, List.mem_append]
    constructor
    · rintro ((((h | h) | h) | h) | h)
      · have := targetStep_of_mem_reduceParty h
        simp [dropChildrenAlt] at this
      · have := targetStep_of_mem_nonSmoking h
        simp [dropChildrenAlt] at this
      · have h3 := mem_suggestDropChildren_iff.mp h
        rw [hnull] at h3
        simp only [jsGtOpt, jsLeOpt, hg, hc, Option.getD_some, decide_eq_true_eq] at h3
        exact ⟨h3.1.1, h3.1.2, h3.2⟩
      · have := targetStep_of_mem_switchArea h
        simp [dropChildrenAlt] at this
      · have := targetStep_of_mem_switchTime h
        simp [dropChildrenAlt] at this
    · intro hrhs
      refine Or.inl (Or.inl (Or.inr ?_))
      apply mem_suggestDropChildren_iff.mpr
      rw [hnull]
      constructor
      · simp only [jsGtOpt, jsLeOpt, hg, hc, decide_eq_true_eq]
        exact ⟨hrhs.1, hrhs.2.1⟩
      · simpa [hg] using hrhs.2.2
  · intro alt halt h5
    simp only [getSuggestedAlternatives, List.mem_append] at halt
    rcases halt with ((((h | h) | h) | h) | h)
    · have := targetStep_of_mem_reduceParty h
      rw [h5] at this
      exact absurd this (by decide)
    · have := targetStep_of_mem_nonSmoking h
      rw [h5] at this
      exact absurd this (by decide)
    · exact eq_of_mem_suggestDropChildren h
    · have := targetStep_of_mem_switchArea h
      rw [h5] at this
      exact absurd this (by decide)
    · have := targetStep_of_mem_switchTime h
      rw [h5] at this
      exact absurd this (by decide)

/-- Witness for C9: 3 guests and 2 children with 5 seats left at the Bar —
the drop-children suggestion is present. -/
theorem c9_drop_children_witness :
    dropChildrenAlt ∈ getSuggestedAlternatives sampleState sampleCandidateChildren []
      (fun _ => some 5) (fun k => some (initialAreaTotals k)) := by
  have h := c9_drop_children sampleState sampleCandidateChildren []
    (fun _ => some 5) (fun k => some (initialAreaTotals k)) 3 2 10 rfl rfl rfl
  exact h.1.mpr ⟨by decide, by decide, by decide⟩

/-- Helper: membership through the insertion step. -/
theorem mem_insertSorted {α : Type} (le : α → α → Bool) (x a : α) (l : List α) :
    a ∈ insertSorted le x l ↔ a = x ∨ a ∈ l := by
  induction l with
  | nil => simp [insertSorted]
  | cons y ys ih =>
    simp only [insertSorted]
    split_ifs with h
    · simp [List.mem_cons]
    · simp only [List.mem_cons, ih]
      tauto

/-- Helper: the sort step of `sortByRel` on a cons. -/
theorem sortByRel_cons {α : Type} (le : α → α → Bool) (x : α) (xs : List α) :
    sortByRel le (x :: xs) = insertSorted le x (sortByRel le xs) := rfl

/-- Helper: sorting preserves membership. -/
theorem mem_sortByRel {α : Type} (le : α → α → Bool) (a : α) (l : List α) :
    a ∈ sortByRel le l ↔ a ∈ l := by
  induction l with
  | nil => simp [sortByRel]
  | cons x xs ih =>
    rw [sortByRel_cons, mem_insertSorted]
    simp [ih]

/-- Helper: inserting into a sorted list keeps it sorted, for a transitive
total boolean relation. -/
theorem pairwise_insertSorted {α : Type} (le : α → α → Bool)
    (htrans : ∀ a b c, le a b = true → le b c = true → le a c = true)
    (htotal : ∀ a b, le a b = true ∨ le b a = true)
    (x : α) (l : List α) (h : l.Pairwise (fun a b => le a b = true)) :
    (insertSorted le x l).Pairwise (fun a b => le a b = true) := by
  induction l with
  | nil => simp [insertSorted]
  | cons y ys ih =>
    rcases List.pairwise_cons.mp h with ⟨hy, hys⟩
    simp only [insertSorted]
    split_ifs with hxy
    · refine List.pairwise_cons.mpr ⟨?_, h⟩
      intro b hb
      rcases List.mem_cons.mp hb with rfl | hb
      · exact hxy
      · exact htrans x y b hxy (hy b hb)
    · refine List.pairwise_cons.mpr ⟨?_, ih hys⟩
      intro b hb
      rcases (mem_insertSorted le x b ys).mp hb with heq | hb
      · rw [heq]
        rcases htotal x y with h1 | h1
        · exact absurd h1 hxy
        · exact h1
      · exact hy b hb

/-- Helper: `sortByRel` sorts, for a transitive total boolean relation. -/
theorem pairwise_sortByRel {α : Type} (le : α → α → Bool)
    (htrans : ∀ a b c, le a b = true → le b c = true → le a c = true)
    (htotal : ∀ a b, le a b = true ∨ le b a = true) (l : List α) :
    (sortByRel le l).Pairwise (fun a b => le a b = true) := by
  induction l with
  | nil => simp [sortByRel]
  | cons x xs ih =>
    rw [sortByRel_cons]
    exact pairwise_insertSorted le htrans htotal x _ ih

/-- Helper: the first hit of `find?` in a sorted list is related to every
hit of the list. -/
theorem find_first_le {α : Type} (p : α → Bool) (le : α → α → Bool)
    (hrefl : ∀ a, le a a = true) :
    ∀ (l : List α) (r : α), l.find? p = some r →
      l.Pairwise (fun a b => le a b = true) →
      ∀ x ∈ l, p x = true → le r x = true := by
  intro l
  induction l with
  | nil =>
    intro r h
    simp at h
  | cons y ys ih =>
    intro r hfind hpw x hx hpx
    rcases List.pairwise_cons.mp hpw with ⟨hy, hys⟩
    by_cases hpy : p y = true
    · rw [List.find?_cons_of_pos _ hpy] at hfind
      injection hfind with hr
      subst hr
      rcases List.mem_cons.mp hx with rfl | hx
      · exact hrefl x
      · exact hy x hx
    · rw [List.find?_cons_of_neg _ hpy] at hfind
      rcases List.mem_cons.mp hx with rfl | hx
      · exact absurd hpx hpy
      · exact ih r hfind hys x hx hpx

/-- Helper: for reservation rows with nonempty stored email and phone (the
pipeline validates both and the schema declares them NOT NULL), the SQL
match condition against `getD ""` parameters coincides with "the provided
email matches or the provided phone matches". -/
theorem codeMatch_iff_claimMatch (email phone : Option String)
    (r : JoinedReservationRow) (hr : r.email ≠ "" ∧ r.phone_number ≠ "") :
    (r.email = email.getD "" ∨ r.phone_number = phone.getD "") ↔
      ((∃ s, email = some s ∧ r.email = s) ∨
        (∃ s, phone = some s ∧ r.phone_number = s)) := by
  constructor
  · rintro (h | h)
    · cases hm : email with
      | none =>
        rw [hm] at h
        exact absurd h hr.1
      | some s =>
        rw [hm] at h
        exact Or.inl ⟨s, rfl, by simpa using h⟩
    · cases hm : phone with
      | none =>
        rw [hm] at h
        exact absurd h hr.2
      | some s =>
        rw [hm] at h
        exact Or.inr ⟨s, rfl, by simpa using h⟩
  · rintro (⟨s, rfl, hr2⟩ | ⟨s, rfl, hr2⟩)
    · exact Or.inl (by simpa using hr2)
    · exact Or.inr (by simpa using hr2)

/-- C4: assuming every stored row carries a nonempty email and phone (both
are validated on write and NOT NULL in the schema), the duplicate check
reports `duplicate` exactly when some reservation matched by exact email OR
exact phone (inclusive) overlaps the candidate's 2-hour span; the reported
conflict is an overlapping match with maximal start time (the first in
datetime-descending order), projected onto the response fields; and
`matchedBy` is `"email"` exactly when the provided email equals the matched
row's email, `"phone"` otherwise — in particular a row found only by phone
with a different email still yields `duplicate`. -/
theorem c4_duplicate_check (rows : List JoinedReservationRow)
    (email phone : Option String) (t : Int)
    (hrows : ∀ r ∈ rows, r.email ≠ "" ∧ r.phone_number ≠ "") :
    ((checkDuplicate rows email phone t).duplicate = true ↔
      ∃ r ∈ rows,
        ((∃ s, email = some s ∧ r.email = s) ∨ (∃ s, phone = some s ∧ r.phone_number = s)) ∧
        r.datetime < t + 120 ∧ r.datetime + 120 > t) ∧
    (∀ cr, (checkDuplicate rows email phone t).conflictingReservation = some cr →
      ∃ r ∈ rows,
        ((∃ s, email = some s ∧ r.email = s) ∨ (∃ s, phone = some s ∧ r.phone_number = s)) ∧
        (r.datetime < t + 120 ∧ r.datetime + 120 > t) ∧
        cr = { reservation_id := r.reservation_id, datetime := r.datetime,
               guests := r.guests, area_id := r.area_id } ∧
        (∀ r2 ∈ rows,
          ((∃ s, email = some s ∧ r2.email = s) ∨ (∃ s, phone = some s ∧ r2.phone_number = s)) →
          r2.datetime < t + 120 → r2.datetime + 120 > t → r2.datetime ≤ r.datetime) ∧
        ((∃ s, email = some s ∧ r.email = s) →
          (checkDuplicate rows email phone t).matchedBy = some "email") ∧
        (¬(∃ s, email = some s ∧ r.email = s) →
          (checkDuplicate rows email phone t).matchedBy = some "phone")) := by
  have hmemQ : ∀ r, r ∈ duplicateQueryRows rows email phone ↔
      r ∈ rows ∧ (r.email = email.getD "" ∨ r.phone_number = phone.getD "") := by
    intro r
    rw [duplicateQueryRows, mem_sortByRel, List.mem_filter]
    simp
  cases hf : (duplicateQueryRows rows email phone).find? (fun r =>
      decide (r.datetime < t + 120 ∧ r.datetime + 120 > t)) with
  | none =>
    have hnone := List.find?_eq_none.mp hf
    constructor
    · constructor
      · intro hd
        simp only [checkDuplicate, hf] at hd
        exact absurd hd (by decide)
      · rintro ⟨r, hrmem, hmatch, hov⟩
        have hcode : r.email = email.getD "" ∨ r.phone_number = phone.getD "" :=
          (codeMatch_iff_claimMatch email phone r (hrows r hrmem)).mpr hmatch
        have : r ∈ duplicateQueryRows rows email phone := (hmemQ r).mpr ⟨hrmem, hcode⟩
        exact absurd (by simpa using hov) (by simpa using hnone r this)
    · intro cr hcr
      simp only [checkDuplicate, hf] at hcr
      exact absurd hcr (by simp)
  | some r0 =>
    have hr0memQ : r0 ∈ duplicateQueryRows rows email phone := List.mem_of_find?_eq_some hf
    have hr0p : r0.datetime < t + 120 ∧ r0.datetime + 120 > t := by
      have := List.find?_some hf
      simpa using this
    obtain ⟨hr0mem, hr0code⟩ := (hmemQ r0).mp hr0memQ
    have hr0match := (codeMatch_iff_claimMatch email phone r0 (hrows r0 hr0mem)).mp hr0code
    have hsorted : (duplicateQueryRows rows email phone).Pairwise
        (fun a b => decide (b.datetime ≤ a.datetime) = true) := by
      apply pairwise_sortByRel
      · intro a b c hab hbc
        simp only [decide_eq_true_eq] at hab hbc ⊢
        omega
      · intro a b
        simp only [decide_eq_true_eq]
        omega
    have hmax : ∀ r2 ∈ rows,
        ((∃ s, email = some s ∧ r2.email = s) ∨ (∃ s, phone = some s ∧ r2.phone_number = s)) →
        r2.datetime < t + 120 → r2.datetime + 120 > t → r2.datetime ≤ r0.datetime := by
      intro r2 h2mem h2match h2a h2b
      have h2code := (codeMatch_iff_claimMatch email phone r2 (hrows r2 h2mem)).mpr h2match
      have h2q : r2 ∈ duplicateQueryRows rows email phone := (hmemQ r2).mpr ⟨h2mem, h2code⟩
      have := find_first_le _ _ (fun a => by simp) _ r0 hf hsorted r2 h2q (by simp [h2a, h2b])
      simpa using this
    constructor
    · constructor
      · intro _
        exact ⟨r0, hr0mem, hr0match, hr0p⟩
      · intro _
        simp only [checkDuplicate]
        rw [hf]
    · intro cr hcr
      simp only [checkDuplicate, hf, Option.some.injEq] at hcr
      refine ⟨r0, hr0mem, hr0match, hr0p, hcr.symm, hmax, ?_, ?_⟩
      · rintro ⟨s, hs, hes⟩
        simp only [checkDuplicate, hf]
        rw [if_pos]
        exact ⟨by simp [hs], by simp [hs, hes]⟩
      · intro hnm
        simp only [checkDuplicate, hf]
        rw [if_neg]
        intro hcon
        apply hnm
        rcases hcon with ⟨h1, h2⟩
        cases hm : email with
        | none => simp [hm] at h1
        | some s => exact ⟨s, rfl, by simpa [hm] using h2⟩

/-- Witness for C4: a reservation at 19:00 found only by phone (the email
differs) still reports a duplicate for a 18:00 candidate. -/
theorem c4_duplicate_check_witness :
    (checkDuplicate
      [{ reservation_id := 1, datetime := 1140, guests := 4, area_id := 2,
         email := "a@b.c", phone_number := "1234567890" }]
      (some "x@y.z") (some "1234567890") 1080).duplicate = true := by
  have h := c4_duplicate_check
    [{ reservation_id := 1, datetime := 1140, guests := 4, area_id := 2,
       email := "a@b.c", phone_number := "1234567890" }]
    (some "x@y.z") (some "1234567890") 1080 (by decide)
  exact h.1.mpr
    ⟨{ reservation_id := 1, datetime := 1140, guests := 4, area_id := 2,
       email := "a@b.c", phone_number := "1234567890" },
      by decide, Or.inr ⟨"1234567890", rfl, rfl⟩, by decide, by decide⟩

/-- C5: whenever any transactional step of the commit fails (user select,
user write, reservation insert, or the commit itself), the call reports an
error; every error outcome leaves the database exactly as before (no
partial user or reservation write); the connection is always released
exactly as often as it is acquired; and every error after acquiring a
connection rolls the transaction back. -/
theorem c5_commit_atomicity (db : DBState) (raw : RawReservation) (o : FailureOracle) :
    ((o.failSelectUser = true ∨ o.failUserWrite = true ∨
        o.failInsertReservation = true ∨ o.failCommit = true) →
      ∃ e, (createReservation db raw o).2.1 = Except.error e) ∧
    (∀ e, (createReservation db raw o).2.1 = Except.error e →
      (createReservation db raw o).2.2 = db) ∧
    ((createReservation db raw o).1.count Event.release =
      (createReservation db raw o).1.count Event.getConn) ∧
    (∀ e, (createReservation db raw o).2.1 = Except.error e →
      Event.getConn ∈ (createReservation db raw o).1 →
      Event.txRollback ∈ (createReservation db raw o).1) := by
  rcases o with ⟨fgc, fsel, fuw, fins, fcom⟩
  cases hs : sanitizeReservationData raw with
  | error e =>
    simp [createReservation, hs]
  | ok s =>
    cases fgc <;> cases fsel <;> cases fuw <;> cases fins <;> cases fcom <;>
      (try simp [createReservation, finishReservation, hs]) <;>
      (try split) <;>
      (try simp)

/-- Witness for C5: a failing reservation insert on an empty database
reports an error and leaves the database untouched. -/
theorem c5_commit_atomicity_witness :
    (∃ e, (createReservation emptyDB sampleRaw oracleFailInsert).2.1 = Except.error e) ∧
    (createReservation emptyDB sampleRaw oracleFailInsert).2.2 = emptyDB := by
  have h := c5_commit_atomicity emptyDB sampleRaw oracleFailInsert
  obtain ⟨e, he⟩ := h.1 (Or.inr (Or.inr (Or.inl rfl)))
  exact ⟨⟨e, he⟩, h.2.1 e he⟩

/-- C6: the `reservation:created` handler broadcasts the invalidation
exactly once on a successful commit and never on a failed attempt
(validation error or rollback), and every broadcast is preceded by the
transaction commit in the event order. -/
theorem c6_broadcast_after_commit (db : DBState) (raw : RawReservation) (o : FailureOracle) :
    ((handleReservationCreated db raw o).1.count Event.broadcast =
      if exceptOk (createReservation db raw o).2.1 = true then 1 else 0) ∧
    (Event.broadcast ∈ (handleReservationCreated db raw o).1 →
      Event.txCommit ∈ (handleReservationCreated db raw o).1.takeWhile
        (fun e => e ≠ Event.broadcast)) := by
  rcases o with ⟨fgc, fsel, fuw, fins, fcom⟩
  cases hs : sanitizeReservationData raw with
  | error e =>
    simp [handleReservationCreated, createReservation, hs, exceptOk]
  | ok s =>
    cases fgc <;> cases fsel <;> cases fuw <;> cases fins <;> cases fcom <;>
      (try simp [handleReservationCreated, createReservation, finishReservation, hs, exceptOk]) <;>
      (try split) <;>
      (try split) <;>
      (try simp_all [List.count_cons, List.count_nil])

/-- Witness for C6: on a successful run the broadcast happens and the
commit precedes it. -/
theorem c6_broadcast_after_commit_witness :
    Event.txCommit ∈ ((handleReservationCreated emptyDB sampleRaw oracleNoFail).1.takeWhile
      (fun e => e ≠ Event.broadcast)) := by
  have h := c6_broadcast_after_commit emptyDB sampleRaw oracleNoFail
  exact h.2 (by decide)

/-- Helper: bind on a successful `Except` step. -/
theorem except_bind_ok {ε α β : Type} (x : α) (f : α → Except ε β) :
    (Except.ok x >>= f : Except ε β) = f x := rfl

/-- Helper: bind on a failed `Except` step. -/
theorem except_bind_error {ε α β : Type} (e : ε) (f : α → Except ε β) :
    (Except.error e >>= f : Except ε β) = Except.error e := rfl

/-- C8 (amended): the sanitize/validate step succeeds iff the sanitized
email matches the email pattern, the sanitized phone has 10–15 digits,
guests is an integer in 1..12, children is an integer in 0..12, the
preferred area is a known key, AND the datetime is present and parseable;
any violation raises a validation error. -/
theorem c8_sanitize_validation (data : RawReservation) :
    (∃ s, sanitizeReservationData data = Except.ok s) ↔
      (emailRegexTest (sanitizeString data.email 45) = true ∧
        (10 ≤ ((sanitizeString data.phone 20).toList.filter Char.isDigit).length ∧
          ((sanitizeString data.phone 20).toList.filter Char.isDigit).length ≤ 15) ∧
        (∃ g, data.guests = some g ∧ 1 ≤ g ∧ g ≤ 12) ∧
        (∃ c, data.children = some c ∧ 0 ≤ c ∧ c ≤ 12) ∧
        (areaMap data.preferredArea).isSome = true ∧
        data.datetime.isSome = true) := by
  cases ha : areaMap data.preferredArea with
  | none =>
    constructor
    · rintro ⟨s, hs⟩
      simp only [sanitizeReservationData, ha] at hs
      exact absurd hs (by simp)
    · rintro ⟨-, -, -, -, hsome, -⟩
      simp at hsome
  | some aid =>
    simp only [sanitizeReservationData, ha]
    constructor
    · rintro ⟨s, hs⟩
      cases he : sanitizeEmail data.email with
      | error e =>
        rw [he, except_bind_error] at hs
        exact absurd hs (by simp)
      | ok em =>
        rw [he, except_bind_ok] at hs
        cases hp : sanitizePhone data.phone with
        | error e =>
          rw [hp, except_bind_error] at hs
          exact absurd hs (by simp)
        | ok ph =>
          rw [hp, except_bind_ok] at hs
          cases hg : sanitizeInt data.guests 1 12 with
          | error e =>
            rw [hg, except_bind_error] at hs
            exact absurd hs (by simp)
          | ok g =>
            rw [hg, except_bind_ok] at hs
            cases hd : sanitizeDatetimeSql data.datetime with
            | error e =>
              rw [hd, except_bind_error] at hs
              exact absurd hs (by simp)
            | ok d =>
              rw [hd, except_bind_ok] at hs
              cases hc : sanitizeInt data.children 0 12 with
              | error e =>
                rw [hc, except_bind_error] at hs
                exact absurd hs (by simp)
              | ok c =>
                refine ⟨?_, ?_, ?_, ?_, by simp [ha], ?_⟩
                · by_cases h : emailRegexTest (sanitizeString data.email 45) = true
                  · exact h
                  · simp only [sanitizeEmail] at he
                    rw [if_neg h] at he
                    exact absurd he (by simp)
                · by_cases h :
                    ((sanitizeString data.phone 20).toList.filter Char.isDigit).length < 10 ∨
                      ((sanitizeString data.phone 20).toList.filter Char.isDigit).length > 15
                  · simp only [sanitizePhone] at hp
                    rw [if_pos h] at hp
                    exact absurd hp (by simp)
                  · omega
                · cases hgv : data.guests with
                  | none =>
                    rw [hgv] at hg
                    simp only [sanitizeInt] at hg
                    exact absurd hg (by simp)
                  | some n =>
                    rw [hgv] at hg
                    simp only [sanitizeInt] at hg
                    by_cases h : n < 1 ∨ n > 12
                    · rw [if_pos h] at hg
                      exact absurd hg (by simp)
                    · exact ⟨n, rfl, by omega, by omega⟩
                · cases hcv : data.children with
                  | none =>
                    rw [hcv] at hc
                    simp only [sanitizeInt] at hc
                    exact absurd hc (by simp)
                  | some n =>
                    rw [hcv] at hc
                    simp only [sanitizeInt] at hc
                    by_cases h : n < 0 ∨ n > 12
                    · rw [if_pos h] at hc
                      exact absurd hc (by simp)
                    · exact ⟨n, rfl, by omega, by omega⟩
                · cases hdv : data.datetime with
                  | none =>
                    rw [hdv] at hd
                    simp only [sanitizeDatetimeSql] at hd
                    exact absurd hd (by simp)
                  | some dt => simp
    · rintro ⟨hemail, hphone, ⟨g, hgv, hg1, hg2⟩, ⟨c, hcv, hc1, hc2⟩, -, hdt⟩
      have he : sanitizeEmail data.email = Except.ok (sanitizeString data.email 45) := by
        simp only [sanitizeEmail]
        rw [if_pos hemail]
      have hp : sanitizePhone data.phone = Except.ok (sanitizeString data.phone 20) := by
        simp only [sanitizePhone]
        rw [if_neg]
        omega
      have hg : sanitizeInt data.guests 1 12 = Except.ok g := by
        rw [hgv]
        simp only [sanitizeInt]
        rw [if_neg]
        omega
      have hc : sanitizeInt data.children 0 12 = Except.ok c := by
        rw [hcv]
        simp only [sanitizeInt]
        rw [if_neg]
        omega
      obtain ⟨dt, hdv⟩ := Option.isSome_iff_exists.mp hdt
      have hd : sanitizeDatetimeSql data.datetime = Except.ok (formatMySqlDatetime dt) := by
        rw [hdv]
        rfl
      exact ⟨_, by rw [he, except_bind_ok, hp, except_bind_ok, hg, except_bind_ok,
        hd, except_bind_ok, hc, except_bind_ok]⟩

/-- C8 counterexample for the claim as stated: this payload satisfies every
condition the claim lists (valid email pattern, 10 digits of phone, guests
2 in 1..12, children 0 in 0..12, known preferred area) and yet the
sanitize step raises a validation error, because its datetime is
missing/unparseable — a condition the claim omits. -/
theorem c8_unparseable_datetime_rejected :
    emailRegexTest (sanitizeString rawBadDatetime.email 45) = true ∧
    10 ≤ ((sanitizeString rawBadDatetime.phone 20).toList.filter Char.isDigit).length ∧
    ((sanitizeString rawBadDatetime.phone 20).toList.filter Char.isDigit).length ≤ 15 ∧
    rawBadDatetime.guests = some 2 ∧
    rawBadDatetime.children = some 0 ∧
    (areaMap rawBadDatetime.preferredArea).isSome = true ∧
    sanitizeReservationData rawBadDatetime = Except.error "Invalid datetime format" := by
  refine ⟨by decide, by decide, by decide, rfl, rfl, by decide, ?_⟩
  rfl

/-- Witness for C8 (amended): the fully valid sample payload passes the
sanitize step. -/
theorem c8_sanitize_validation_witness :
    ∃ s, sanitizeReservationData sampleRaw = Except.ok s := by
  apply (c8_sanitize_validation sampleRaw).mpr
  refine ⟨by decide, by decide, ⟨2, rfl, by decide, by decide⟩,
    ⟨0, rfl, by decide, by decide⟩, by decide, by decide⟩

end Kafa
